import Mathlib

/-!
# Verification of the `hp` command-line argument parser

Shallow embedding of `src/lib.rs` and `src/errors.rs` of the `hp` library.

Modelling choices:
* Rust `HashMap<String, Template>` keys have the shape `"{parent}#{alias}"`
  where `parent` is a `usize` rendered in decimal.  Decimal digits never
  contain `#`, so the formatted string determines the pair `(parent, alias)`
  uniquely; we therefore model keys as `Nat × String` pairs.  `HashMap` is
  modelled as an association list where `insert` removes the old binding and
  conses the new one, so `get` sees the last write and `values` never sees an
  overwritten entry (Rust's `values()` iteration order is unspecified; the
  model iterates most-recent-insertion first).
* `usize` counters (`last_id`, arities, counts) are modelled as `Nat`.
* The callback `action: Option<Rc<RefCell<dyn FnMut(Vec<String>)>>>` is
  modelled by its observable trace: `has_action` records presence, and each
  invocation appends a `callback` event carrying the template id and the
  values, in invocation order.  `help_and_exit`'s `println!` is an
  `helpEmitted` event, and its `exit(0)` (when `exit_on_help`) ends the run
  with outcome `exited`.  The `.unwrap()` / `[0]` indexing in the
  out-of-context branch become outcome `panicked` when they would panic.
* Presentation-only state (help text, author, description, usage, program
  name, `create_help`) is omitted: it never influences matching, errors or
  the recorded results.
-/

/-- Association-list lookup: the value of the first binding of `k`
(models `HashMap::get`). -/
def hmGet {κ α : Type} [DecidableEq κ] (m : List (κ × α)) (k : κ) : Option α :=
  (m.find? (fun p => p.1 = k)).map (fun p => p.2)

/-- Association-list insert (models `HashMap::insert`): drop any old binding
of `k`, put the new one in front. -/
def hmInsert {κ α : Type} [DecidableEq κ] (m : List (κ × α)) (k : κ) (v : α) :
    List (κ × α) :=
  (k, v) :: m.filter (fun p => ¬ p.1 = k)

/-- `enum HpError` from `src/errors.rs`. -/
inductive HpError where
  /-- `NumberOfValues(String, usize, usize)`: argument, got, expected. -/
  | NumberOfValues (arg : String) (got : Nat) (expected : Nat)
  /-- `OutOfContext(String, String)`: argument, first alias of its parent. -/
  | OutOfContext (arg : String) (parent : String)
deriving DecidableEq, Repr

/-- `struct Template` from `src/lib.rs` (the `help` string is presentation
only and omitted; the `action` closure is modelled by its presence). -/
structure Template where
  aliases : List String
  num_values : Nat
  optional_vals : Bool
  subargument_of : Option Nat
  id : Nat
  has_action : Bool
deriving DecidableEq, Repr

/-- `Template::new()`. -/
def Template.new : Template :=
  { aliases := [], num_values := 0, optional_vals := false,
    subargument_of := none, id := 0, has_action := false }

/-- `Template::matches(name)` (named `addMatch` here because `matches` is the
field accessor): push `name` unless already present. -/
def Template.addMatch (t : Template) (name : String) : Template :=
  if name ∈ t.aliases then t else { t with aliases := t.aliases ++ [name] }

/-- `Template::number_of_values(nv)`. -/
def Template.number_of_values (t : Template) (nv : Nat) : Template :=
  { t with num_values := nv }

/-- `Template::optional_values(ov)`. -/
def Template.optional_values (t : Template) (ov : Bool) : Template :=
  { t with optional_vals := ov }

/-- `Template::on_parse(action)`: record that a callback is attached. -/
def Template.on_parse (t : Template) : Template :=
  { t with has_action := true }

/-- `Template::set_id(id)`. -/
def Template.set_id (t : Template) (i : Nat) : Template :=
  { t with id := i }

/-- `Template::subarg(id)`. -/
def Template.subarg (t : Template) (i : Nat) : Template :=
  { t with subargument_of := some i }

/-- `struct ParsedArgument`. -/
structure ParsedArgument where
  id : Nat
  values : List String
deriving DecidableEq, Repr

/-- `struct Parser` (presentation-only fields omitted, see module comment). -/
structure Parser where
  stored : List ((Nat × String) × Template)
  order : List String
  last_id : Nat
  exit_on_help : Bool
deriving Repr

/-- `Parser::new()` (the executable-name lookup only feeds the omitted
`program_name`). -/
def Parser.new : Parser :=
  { stored := [], order := [], last_id := 0, exit_on_help := true }

/-- `Parser::exit_on_help(v)`. -/
def Parser.set_exit_on_help (p : Parser) (v : Bool) : Parser :=
  { p with exit_on_help := v }

/-- `Parser::generate_id`: `self.last_id += 1; self.last_id`. -/
def Parser.generate_id (p : Parser) : Parser × Nat :=
  ({ p with last_id := p.last_id + 1 }, p.last_id + 1)

/-- The per-alias body of the loop in `Parser::add_to_map`: insert the
template under the key `(subargument_of.unwrap_or(0), name)` and push `name`
onto `order`. -/
def addOneAlias (t : Template) (p : Parser) (name : String) : Parser :=
  { p with
    stored := hmInsert p.stored (t.subargument_of.getD 0, name) t,
    order := p.order ++ [name] }

/-- `Parser::add_to_map(template)`: fresh id, stamp it, insert one entry per
alias, return the id. -/
def Parser.add_to_map (p : Parser) (template : Template) : Parser × Nat :=
  let pi := p.generate_id
  let t := template.set_id pi.2
  (t.aliases.foldl (addOneAlias t) pi.1, pi.2)

/-- `Parser::add(matches, num_values, help)` (help text omitted). -/
def Parser.add (p : Parser) (m : String) (num_values : Nat) : Parser × Nat :=
  p.add_to_map ((Template.new.addMatch m).number_of_values num_values)

/-- `Parser::add_template(template)`. -/
def Parser.add_template (p : Parser) (template : Template) : Parser × Nat :=
  p.add_to_map template

/-- `Parser::add_subcommand(subargument_of, matches, num_values, help)`:
note it draws an id, stamps it, then `add_to_map` draws and stamps a second
one, which is the one returned. -/
def Parser.add_subcommand (p : Parser) (subargument_of : Nat) (m : String)
    (num_values : Nat) : Parser × Nat :=
  let pi := p.generate_id
  let t := (((Template.new.addMatch m).number_of_values num_values).set_id
    pi.2).subarg subargument_of
  pi.1.add_to_map t

/-- `Parser::add_subcommand_template(subargument_of, template)`: same
double id draw as `add_subcommand`. -/
def Parser.add_subcommand_template (p : Parser) (subargument_of : Nat)
    (template : Template) : Parser × Nat :=
  let pi := p.generate_id
  pi.1.add_to_map ((template.set_id pi.2).subarg subargument_of)

/-- Observable side effects of a parse pass, in emission order. -/
inductive Event where
  /-- `help_and_exit` printed the help text. -/
  | helpEmitted
  /-- A template's `action` closure ran on these values. -/
  | callback (id : Nat) (values : List String)
deriving DecidableEq, Repr

/-- Final outcome of `Parser::parse`. -/
inductive ParseResult where
  /-- `Ok(ParsedArguments { hm, ids })`. -/
  | ok (hm : List ((Nat × String) × ParsedArgument))
      (ids : List (Nat × ParsedArgument))
  /-- `Err(e)`. -/
  | err (e : HpError)
  /-- `exit(0)` was reached inside `help_and_exit`. -/
  | exited
  /-- A `.unwrap()` or `[0]` in the out-of-context branch panicked. -/
  | panicked
deriving DecidableEq, Repr

/-- Whether `value` is a registered key under context `ctx` or under the
top-level context `0` — the stop condition of the value-consumption loop:
`self.stored.get(&q1).is_some() || self.stored.get(&q2).is_some()`. -/
def isStop (stored : List ((Nat × String) × Template)) (ctx : Nat)
    (value : String) : Bool :=
  (hmGet stored (ctx, value)).isSome || (hmGet stored (0, value)).isSome

/-- The value-consumption `while` loop of `Parser::parse`: starting at
position `i` of `args`, with `fuel` remaining slots (initially
`template.num_values`, starting at `index + 1`), collect tokens until a slot
count runs out, the input ends, or a token is a registered key under `ctx`
(the already-switched context) or `0`. -/
def consumeValues (stored : List ((Nat × String) × Template)) (ctx : Nat)
    (args : List String) : Nat → Nat → List String
  | _, 0 => []
  | i, fuel + 1 =>
    match args[i]? with
    | none => []
    | some value =>
      if isStop stored ctx value then []
      else value :: consumeValues stored ctx args (i + 1) fuel

/-- Mutable state of the outer `for` loop of `Parser::parse`. -/
structure LoopState where
  hm : List ((Nat × String) × ParsedArgument)
  idhm : List (Nat × ParsedArgument)
  context : Nat
  events : List Event
deriving DecidableEq, Repr

/-- One step of either matched branch of `Parser::parse` (both branches have
identical bodies; `key` is `query` resp. `query2`): switch context, consume
values, check arity, fire the callback, record the parsed argument. -/
def matchBranch (p : Parser) (args : List String) (index : Nat) (arg : String)
    (key : Nat × String) (template : Template) (st : LoopState) :
    Except (ParseResult × List Event) LoopState :=
  let ctx := template.id
  let values := consumeValues p.stored ctx args (index + 1) template.num_values
  let count := values.length
  if ¬ template.optional_vals ∧ count < template.num_values then
    .error (.err (.NumberOfValues arg count template.num_values), st.events)
  else
    let events :=
      if template.has_action then st.events ++ [.callback ctx values]
      else st.events
    let pa : ParsedArgument := ⟨ctx, values⟩
    .ok { hm := hmInsert st.hm key pa, idhm := hmInsert st.idhm ctx pa,
          context := ctx, events := events }

/-- The out-of-context branch of `Parser::parse`:
`self.stored.values().find(|t| t.aliases.contains(arg))`, then the parent
lookup with its `.unwrap()` and the `parent.aliases[0]` indexing. -/
def outOfContextBranch (p : Parser) (arg : String) (st : LoopState) :
    Except (ParseResult × List Event) LoopState :=
  match p.stored.find? (fun e => arg ∈ e.2.aliases) with
  | none => .ok st
  | some e =>
    match e.2.subargument_of with
    | none => .ok st
    | some parentId =>
      match p.stored.find? (fun q => q.2.id = parentId) with
      | none => .error (.panicked, st.events)
      | some parentEntry =>
        match parentEntry.2.aliases.head? with
        | none => .error (.panicked, st.events)
        | some parentMatch =>
          .error (.err (.OutOfContext arg parentMatch), st.events)

/-- One iteration of the outer `for` loop of `Parser::parse`, for the token
`arg` at position `index`. -/
def parseStep (p : Parser) (args : List String) (index : Nat) (arg : String)
    (st : LoopState) : Except (ParseResult × List Event) LoopState :=
  match
    (if arg = "--help" ∨ arg = "-h" then
      if p.exit_on_help then
        Except.error (ParseResult.exited, st.events ++ [Event.helpEmitted])
      else Except.ok { st with events := st.events ++ [Event.helpEmitted] }
    else Except.ok st : Except (ParseResult × List Event) LoopState)
  with
  | .error out => .error out
  | .ok st =>
    match hmGet p.stored (st.context, arg) with
    | some template => matchBranch p args index arg (st.context, arg) template st
    | none =>
      match hmGet p.stored (0, arg) with
      | some template => matchBranch p args index arg (0, arg) template st
      | none => outOfContextBranch p arg st

/-- The outer `for (index, arg) in args.iter().enumerate()` loop of
`Parser::parse`, run from position `index` with `rest = args.drop index`. -/
def parseFrom (p : Parser) (args : List String) :
    List String → Nat → LoopState → ParseResult × List Event
  | [], _, st => (.ok st.hm st.idhm, st.events)
  | arg :: rest, index, st =>
    match parseStep p args index arg st with
    | .error out => out
    | .ok st => parseFrom p args rest (index + 1) st

/-- `Parser::parse(Some(args))`, returning the result paired with the trace
of observable side effects. -/
def Parser.parse (p : Parser) (args : List String) : ParseResult × List Event :=
  parseFrom p args args 0 { hm := [], idhm := [], context := 0, events := [] }

/-! ## Association-list (`HashMap`) lemmas -/

/-- Looking up the key just inserted yields the inserted value. -/
theorem hmGet_insert_self {κ α : Type} [DecidableEq κ]
    (m : List (κ × α)) (k : κ) (v : α) : hmGet (hmInsert m k v) k = some v := by
  simp [hmGet, hmInsert]

/-- `find?` by key ignores entries removed by a filter on a different key. -/
theorem find?_filter_other {κ α : Type} [DecidableEq κ]
    (l : List (κ × α)) (k k2 : κ) (h : ¬ k2 = k) :
    (l.filter (fun p => ¬ p.1 = k)).find? (fun p => p.1 = k2) =
      l.find? (fun p => p.1 = k2) := by
  induction l with
  | nil => rfl
  | cons a as ih =>
    rw [List.filter_cons]
    by_cases ha : a.1 = k
    · have ha2 : ¬ a.1 = k2 := fun hc => h (hc.symm.trans ha)
      rw [if_neg (by simp [ha]), ih, List.find?_cons_of_neg _ (by simp [ha2])]
    · rw [if_pos (by simp [ha])]
      by_cases hb : a.1 = k2
      · rw [List.find?_cons_of_pos _ (by simp [hb]),
          List.find?_cons_of_pos _ (by simp [hb])]
      · rw [List.find?_cons_of_neg _ (by simp [hb]),
          List.find?_cons_of_neg _ (by simp [hb]), ih]

/-- Inserting under one key leaves lookups of any other key unchanged. -/
theorem hmGet_insert_other {κ α : Type} [DecidableEq κ]
    (m : List (κ × α)) (k k2 : κ) (v : α) (h : ¬ k2 = k) :
    hmGet (hmInsert m k v) k2 = hmGet m k2 := by
  unfold hmGet hmInsert
  rw [List.find?_cons_of_neg _ (by simp; exact fun hc => h hc.symm),
    find?_filter_other m k k2 h]

/-! ## Concrete parsers used by the claims' examples -/

/-- `--say` with arity 1, not optional (id 1), default `exit_on_help`. -/
def sayParser : Parser := (Parser.new.add "--say" 1).1

/-- Same as `sayParser` but with `exit_on_help(false)`. -/
def noExitParser : Parser := ((Parser.new.set_exit_on_help false).add "--say" 1).1

/-- `-c` arity 0 (id 1). -/
def cParser0 : Parser × Nat := Parser.new.add "-c" 0

/-- `-c` plus subcommand `--add` of `-c` (stored id 3). -/
def cParser1 : Parser × Nat := cParser0.1.add_subcommand cParser0.2 "--add" 0

/-- `-c`, its subcommand `--add`, and top-level `--say` arity 1 (id 4). -/
def sayAddParser : Parser := (cParser1.1.add "--say" 1).1

/-- A child `--child` registered under the never-registered parent id 5. -/
def orphanParser : Parser := (Parser.new.add_subcommand 5 "--child" 0).1

/-- `say` with arity 1, optional values, and an `on_parse` callback (id 1). -/
def sayCbParser : Parser :=
  (Parser.new.add_template
    ((((Template.new.addMatch "say").on_parse).number_of_values 1).optional_values
      true)).1

/-- `--say`, then `-x`/`--expand` (id 3), then its subcommand `--string`
(mirrors the `out_of_context` test of `lib.rs`). -/
def xParser0 : Parser × Nat := Parser.new.add "--say" 0

/-- Adds `-x`/`--expand` to `xParser0`. -/
def xParser1 : Parser × Nat :=
  xParser0.1.add_template ((Template.new.addMatch "-x").addMatch "--expand")

/-- Adds the subcommand `--string` of `-x`/`--expand` to `xParser1`. -/
def xStringParser : Parser :=
  (xParser1.1.add_subcommand_template xParser1.2 (Template.new.addMatch "--string")).1

/-- `dup` top-level (id 1), `-x` top-level (id 2), and a second template also
aliased `dup` as a subcommand of `-x` (id 4). -/
def dupParser0 : Parser × Nat := Parser.new.add "dup" 0

/-- Adds `-x` to `dupParser0`. -/
def dupParser1 : Parser × Nat := dupParser0.1.add "-x" 0

/-- Adds the subcommand `dup` of `-x` to `dupParser1`. -/
def dupParser : Parser := (dupParser1.1.add_subcommand dupParser1.2 "dup" 0).1

/-! ## C4 -/

/-- C4 counterexample: the claim says using the alias of a child registered
under a never-registered parent surfaces only as a returned `OutOfContext`
error.  In fact the parent lookup's `.unwrap()` panics: with `--child`
registered under the absent parent id 5, parsing `["--child"]` panics
(`ParseResult.panicked`), which is not a returned error at all. -/
theorem c4_counterexample_parent_unwrap_panics :
    orphanParser.parse ["--child"] = (.panicked, []) := by
  rfl

/-- C4 amended: registering a child under a never-registered parent
identifier is indeed permitted at registration time — the call returns
normally and the child is stored under the key `(parent, alias)` — but using
the child's alias in a parse pass panics (the `.unwrap()` of the missing
parent template) instead of returning an `OutOfContext` error. -/
theorem c4_amended_registration_ok_parse_panics :
    (∀ (p : Parser) (parentId : Nat) (m : String) (n : Nat),
      hmGet ((p.add_subcommand parentId m n).1).stored (parentId, m) =
        some ⟨[m], n, false, some parentId, (p.add_subcommand parentId m n).2,
          false⟩)
    ∧ orphanParser.parse ["--child"] = (.panicked, []) := by
  constructor
  · intro p parentId m n
    simp [Parser.add_subcommand, Parser.add_to_map, Template.new,
      Template.addMatch, Template.number_of_values, Template.set_id,
      Template.subarg, Parser.generate_id, addOneAlias, hmGet_insert_self]
  · rfl

/-! ## C5 -/

/-- C5 counterexample: the claim says consumed value tokens are never
re-scanned and can produce no observable effect.  With `-c` (id 1), its
subcommand `--add`, and top-level `--say` (arity 1, id 4), parsing
`["--say", "--add"]` consumes `--add` as the value of `--say` (first
conjunct: the consumption loop run by the match collects `["--add"]`), yet
the outer pass then re-scans `--add` and fails with an `OutOfContext`
error. -/
theorem c5_counterexample_consumed_token_errors :
    consumeValues sayAddParser.stored 4 ["--say", "--add"] 1 1 = ["--add"]
    ∧ sayAddParser.parse ["--say", "--add"] =
        (.err (.OutOfContext "--add" "-c"), []) :=
  ⟨rfl, rfl⟩

/-- C5 amended: consumed value tokens ARE re-scanned as top-level tokens by
the outer pass; such a token (one that the consumption loop did not stop at,
i.e. not a registered key under the current or top-level context, and not a
help alias) can never produce a match — its step either leaves the loop
state completely unchanged, or aborts the pass with a panic or an
`OutOfContext` error. -/
theorem c5_amended_rescan_never_matches :
    ∀ (p : Parser) (args : List String) (i : Nat) (v : String)
      (rest : List String) (st : LoopState),
      isStop p.stored st.context v = false →
      ¬ (v = "--help" ∨ v = "-h") →
      parseFrom p args (v :: rest) i st = parseFrom p args rest (i + 1) st
      ∨ parseFrom p args (v :: rest) i st = (.panicked, st.events)
      ∨ ∃ a, parseFrom p args (v :: rest) i st =
          (.err (.OutOfContext v a), st.events) := by
  intro p args i v rest st hstop hv
  cases hga : hmGet p.stored (st.context, v) with
  | some t =>
    rw [isStop, hga] at hstop
    simp at hstop
  | none =>
  cases hgb : hmGet p.stored (0, v) with
  | some t =>
    rw [isStop, hga, hgb] at hstop
    simp at hstop
  | none =>
  have hstep : parseStep p args i v st = outOfContextBranch p v st := by
    simp [parseStep, hv, hga, hgb]
  cases hf : p.stored.find? (fun e => v ∈ e.2.aliases) with
  | none =>
    left
    simp only [parseFrom, hstep, outOfContextBranch, hf]
  | some e =>
  cases hs : e.2.subargument_of with
  | none =>
    left
    simp only [parseFrom, hstep, outOfContextBranch, hf, hs]
  | some pid =>
  cases hp : p.stored.find? (fun q => q.2.id = pid) with
  | none =>
    right; left
    simp only [parseFrom, hstep, outOfContextBranch, hf, hs, hp]
  | some pe =>
  cases hh : pe.2.aliases.head? with
  | none =>
    right; left
    simp only [parseFrom, hstep, outOfContextBranch, hf, hs, hp, hh]
  | some a =>
    right; right
    exact ⟨a, by simp only [parseFrom, hstep, outOfContextBranch, hf, hs, hp, hh]⟩

/-- Witness for `c5_amended_rescan_never_matches`: instantiated at the state
reached right after `--say` consumed `--add` in `sayAddParser`. -/
theorem c5_amended_witness :
    isStop sayAddParser.stored 4 "--add" = false
    ∧ ¬ (("--add" : String) = "--help" ∨ ("--add" : String) = "-h")
    ∧ (parseFrom sayAddParser ["--say", "--add"] ["--add"] 1
          ⟨[((0, "--say"), ⟨4, ["--add"]⟩)], [(4, ⟨4, ["--add"]⟩)], 4, []⟩ =
        parseFrom sayAddParser ["--say", "--add"] [] 2
          ⟨[((0, "--say"), ⟨4, ["--add"]⟩)], [(4, ⟨4, ["--add"]⟩)], 4, []⟩
      ∨ parseFrom sayAddParser ["--say", "--add"] ["--add"] 1
          ⟨[((0, "--say"), ⟨4, ["--add"]⟩)], [(4, ⟨4, ["--add"]⟩)], 4, []⟩ =
          (.panicked, [])
      ∨ ∃ a, parseFrom sayAddParser ["--say", "--add"] ["--add"] 1
          ⟨[((0, "--say"), ⟨4, ["--add"]⟩)], [(4, ⟨4, ["--add"]⟩)], 4, []⟩ =
          (.err (.OutOfContext "--add" a), [])) :=
  ⟨rfl, by decide,
    c5_amended_rescan_never_matches sayAddParser ["--say", "--add"] 1 "--add"
      [] ⟨[((0, "--say"), ⟨4, ["--add"]⟩)], [(4, ⟨4, ["--add"]⟩)], 4, []⟩
      rfl (by decide)⟩

/-! ## C1 -/

/-- C1: the value-consumption loop started at position `i` with `n` slots
returns exactly a contiguous run of tokens of `args` from position `i`
(second conjunct), of length at most `n` (first conjunct), none of which is
a registered key under the newly-set context or the top-level context
(third conjunct); and it falls short of `n` only because the input ended or
because the next token IS such a registered key (fourth conjunct) — any
token that is not a key under those two contexts, including one registered
only under an unrelated context, is consumed. -/
theorem c1_value_consumption_characterization :
    ∀ (stored : List ((Nat × String) × Template)) (ctx : Nat)
      (args : List String) (i n : Nat),
      (consumeValues stored ctx args i n).length ≤ n
      ∧ consumeValues stored ctx args i n =
          (args.drop i).take (consumeValues stored ctx args i n).length
      ∧ (∀ v ∈ consumeValues stored ctx args i n, isStop stored ctx v = false)
      ∧ ((consumeValues stored ctx args i n).length < n →
          args.length ≤ i + (consumeValues stored ctx args i n).length
          ∨ ∃ v, args[i + (consumeValues stored ctx args i n).length]? = some v
              ∧ isStop stored ctx v = true) := by
  intro stored ctx args i n
  induction n generalizing i with
  | zero =>
    refine ⟨by simp [consumeValues], by simp [consumeValues],
      by simp [consumeValues], ?_⟩
    intro hlt
    simp [consumeValues] at hlt
  | succ n ih =>
    cases hv : args[i]? with
    | none =>
      refine ⟨by simp [consumeValues, hv], by simp [consumeValues, hv],
        by simp [consumeValues, hv], ?_⟩
      intro _
      left
      simpa [consumeValues, hv] using List.getElem?_eq_none_iff.mp hv
    | some v =>
      cases hstop : isStop stored ctx v with
      | true =>
        refine ⟨by simp [consumeValues, hv, hstop],
          by simp [consumeValues, hv, hstop],
          by simp [consumeValues, hv, hstop], ?_⟩
        intro _
        right
        refine ⟨v, ?_, hstop⟩
        simp [consumeValues, hv, hstop]
      | false =>
        obtain ⟨ih1, ih2, ih3, ih4⟩ := ih (i + 1)
        have hcv : consumeValues stored ctx args i (n + 1) =
            v :: consumeValues stored ctx args (i + 1) n := by
          simp [consumeValues, hv, hstop]
        have hlt : i < args.length := by
          by_contra hc
          rw [List.getElem?_eq_none_iff.mpr (by omega)] at hv
          exact Option.noConfusion hv
        have hgi : args[i] = v := by
          have := List.getElem?_eq_some_iff.mp hv
          exact this.choose_spec
        refine ⟨?_, ?_, ?_, ?_⟩
        · rw [hcv]
          simpa using ih1
        · rw [hcv, List.drop_eq_getElem_cons hlt, hgi]
          simp only [List.length_cons, List.take_succ_cons]
          rw [← ih2]
        · rw [hcv]
          intro w hw
          rcases List.mem_cons.mp hw with hw1 | hw2
          · rw [hw1]; exact hstop
          · exact ih3 w hw2
        · rw [hcv]
          intro hlen
          simp only [List.length_cons] at hlen
          have := ih4 (by omega)
          have harith : i + (consumeValues stored ctx args (i + 1) n).length + 1 =
              i + 1 + (consumeValues stored ctx args (i + 1) n).length := by omega
          rcases this with h1 | ⟨w, hw1, hw2⟩
          · left
            simp only [List.length_cons]
            omega
          · right
            refine ⟨w, ?_, hw2⟩
            simp only [List.length_cons]
            rw [show i + ((consumeValues stored ctx args (i + 1) n).length + 1) =
              i + 1 + (consumeValues stored ctx args (i + 1) n).length from by omega]
            exact hw1

/-- Witness for `c1_value_consumption_characterization`, instantiated at the
`--say`/`--add` consumption run of `sayAddParser`. -/
theorem c1_witness :
    (consumeValues sayAddParser.stored 4 ["--say", "--add", "-c"] 1 5).length ≤ 5
    ∧ consumeValues sayAddParser.stored 4 ["--say", "--add", "-c"] 1 5 =
        ((["--say", "--add", "-c"] : List String).drop 1).take
          (consumeValues sayAddParser.stored 4 ["--say", "--add", "-c"] 1 5).length
    ∧ (∀ v ∈ consumeValues sayAddParser.stored 4 ["--say", "--add", "-c"] 1 5,
        isStop sayAddParser.stored 4 v = false)
    ∧ ((consumeValues sayAddParser.stored 4 ["--say", "--add", "-c"] 1 5).length < 5 →
        (["--say", "--add", "-c"] : List String).length ≤
          1 + (consumeValues sayAddParser.stored 4 ["--say", "--add", "-c"] 1 5).length
        ∨ ∃ v, (["--say", "--add", "-c"] : List String)[1 +
              (consumeValues sayAddParser.stored 4 ["--say", "--add", "-c"] 1 5).length]? =
              some v
            ∧ isStop sayAddParser.stored 4 v = true) :=
  c1_value_consumption_characterization sayAddParser.stored 4
    ["--say", "--add", "-c"] 1 5

/-! ## Step lemmas shared by the claims about `Parser::parse` -/

/-- On a non-help token, a hit of the current-context key runs the match
branch with that key (the top-level key is not consulted). -/
theorem parseStep_ctx_hit (p : Parser) (args : List String) (i : Nat)
    (arg : String) (st : LoopState) (template : Template)
    (hv : ¬ (arg = "--help" ∨ arg = "-h"))
    (hg : hmGet p.stored (st.context, arg) = some template) :
    parseStep p args i arg st =
      matchBranch p args i arg (st.context, arg) template st := by
  simp [parseStep, hv, hg]

/-- On a non-help token, a miss of the current-context key followed by a hit
of the top-level key runs the match branch with the top-level key. -/
theorem parseStep_top_hit (p : Parser) (args : List String) (i : Nat)
    (arg : String) (st : LoopState) (template : Template)
    (hv : ¬ (arg = "--help" ∨ arg = "-h"))
    (hg1 : hmGet p.stored (st.context, arg) = none)
    (hg2 : hmGet p.stored (0, arg) = some template) :
    parseStep p args i arg st =
      matchBranch p args i arg (0, arg) template st := by
  simp [parseStep, hv, hg1, hg2]

/-- On a non-help token missing both lookups, the step is the
out-of-context branch. -/
theorem parseStep_miss (p : Parser) (args : List String) (i : Nat)
    (arg : String) (st : LoopState)
    (hv : ¬ (arg = "--help" ∨ arg = "-h"))
    (hg1 : hmGet p.stored (st.context, arg) = none)
    (hg2 : hmGet p.stored (0, arg) = none) :
    parseStep p args i arg st = outOfContextBranch p arg st := by
  simp [parseStep, hv, hg1, hg2]

/-! ## C2 -/

/-- C2: a matched template with `optional_vals` false whose consumption loop
collects fewer than `num_values` values makes the whole pass return a
`NumberOfValues` error carrying the matched token text, the collected count
and the required arity, with no further tokens processed and no further side
effects (the returned event list is exactly the events accumulated so far) —
for a match through the current-context key (first conjunct) and through the
top-level key (second conjunct) alike. -/
theorem c2_arity_shortfall_hard_stop :
    (∀ (p : Parser) (args : List String) (arg : String) (rest : List String)
      (i : Nat) (st : LoopState) (template : Template),
      ¬ (arg = "--help" ∨ arg = "-h") →
      hmGet p.stored (st.context, arg) = some template →
      template.optional_vals = false →
      (consumeValues p.stored template.id args (i + 1)
        template.num_values).length < template.num_values →
      parseFrom p args (arg :: rest) i st =
        (.err (.NumberOfValues arg
          (consumeValues p.stored template.id args (i + 1)
            template.num_values).length template.num_values), st.events))
    ∧ (∀ (p : Parser) (args : List String) (arg : String) (rest : List String)
      (i : Nat) (st : LoopState) (template : Template),
      ¬ (arg = "--help" ∨ arg = "-h") →
      hmGet p.stored (st.context, arg) = none →
      hmGet p.stored (0, arg) = some template →
      template.optional_vals = false →
      (consumeValues p.stored template.id args (i + 1)
        template.num_values).length < template.num_values →
      parseFrom p args (arg :: rest) i st =
        (.err (.NumberOfValues arg
          (consumeValues p.stored template.id args (i + 1)
            template.num_values).length template.num_values), st.events)) := by
  constructor
  · intro p args arg rest i st template hv hg hopt hlt
    simp only [parseFrom, parseStep_ctx_hit p args i arg st template hv hg]
    simp [matchBranch, hopt, hlt]
  · intro p args arg rest i st template hv hg1 hg2 hopt hlt
    simp only [parseFrom, parseStep_top_hit p args i arg st template hv hg1 hg2]
    simp [matchBranch, hopt, hlt]

/-- Witness for `c2_arity_shortfall_hard_stop`: the spec's own example —
`--say` registered with arity 1 not optional, parsing `["--say"]` fails with
collected = 0, required = 1. -/
theorem c2_witness :
    sayParser.parse ["--say"] = (.err (.NumberOfValues "--say" 0 1), []) := by
  have h := c2_arity_shortfall_hard_stop.1 sayParser ["--say"] "--say" [] 0
    ⟨[], [], 0, []⟩ ⟨["--say"], 1, false, none, 1, false⟩
    (by decide) rfl rfl (by decide)
  exact h

/-! ## C3 -/

/-- C3: when a token matches no registry key under the current context nor
the top-level context, then (first conjunct) if the registry holds a
template owning that alias and it declares a parent whose template is
registered, the pass fails with an `OutOfContext` error carrying the token
and the first alias of the parent template; and (second conjunct) if no
registered template owns the alias, the token is silently skipped: the pass
continues on the remaining tokens with the loop state completely
unchanged. -/
theorem c3_out_of_context_or_silent_skip :
    (∀ (p : Parser) (args : List String) (i : Nat) (arg : String)
      (rest : List String) (st : LoopState)
      (e : (Nat × String) × Template) (pid : Nat)
      (pe : (Nat × String) × Template) (a : String),
      ¬ (arg = "--help" ∨ arg = "-h") →
      hmGet p.stored (st.context, arg) = none →
      hmGet p.stored (0, arg) = none →
      p.stored.find? (fun q => arg ∈ q.2.aliases) = some e →
      e.2.subargument_of = some pid →
      p.stored.find? (fun q => q.2.id = pid) = some pe →
      pe.2.aliases.head? = some a →
      parseFrom p args (arg :: rest) i st =
        (.err (.OutOfContext arg a), st.events))
    ∧ (∀ (p : Parser) (args : List String) (i : Nat) (arg : String)
      (rest : List String) (st : LoopState),
      ¬ (arg = "--help" ∨ arg = "-h") →
      hmGet p.stored (st.context, arg) = none →
      hmGet p.stored (0, arg) = none →
      p.stored.find? (fun q => arg ∈ q.2.aliases) = none →
      parseFrom p args (arg :: rest) i st =
        parseFrom p args rest (i + 1) st) := by
  constructor
  · intro p args i arg rest st e pid pe a hv hg1 hg2 hf hs hp hh
    simp only [parseFrom, parseStep_miss p args i arg st hv hg1 hg2]
    simp [outOfContextBranch, hf, hs, hp, hh]
  · intro p args i arg rest st hv hg1 hg2 hf
    simp only [parseFrom, parseStep_miss p args i arg st hv hg1 hg2]
    simp [outOfContextBranch, hf]

/-- Witness for `c3_out_of_context_or_silent_skip`: first conjunct at the
`out_of_context` test of `lib.rs` (`--string` without `-x` fails naming
`-x`), second conjunct at an unregistered noise token. -/
theorem c3_witness :
    (parseFrom xStringParser ["--string"] ["--string"] 0 ⟨[], [], 0, []⟩ =
      (.err (.OutOfContext "--string" "-x"), []))
    ∧ (parseFrom sayParser ["noise"] ["noise"] 0 ⟨[], [], 0, []⟩ =
      parseFrom sayParser ["noise"] [] 1 ⟨[], [], 0, []⟩) :=
  ⟨c3_out_of_context_or_silent_skip.1 xStringParser ["--string"] 0 "--string"
      [] ⟨[], [], 0, []⟩
      ((2, "--string"), ⟨["--string"], 0, false, some 2, 4, false⟩) 2
      ((0, "--expand"), ⟨["-x", "--expand"], 0, false, none, 2, false⟩) "-x"
      (by decide) rfl rfl rfl rfl rfl rfl,
    c3_out_of_context_or_silent_skip.2 sayParser ["noise"] 0 "noise" []
      ⟨[], [], 0, []⟩ (by decide) rfl rfl rfl⟩

/-! ## C8 -/

/-- C8: the engine looks the token up under the current context first and
falls back to the top-level key 0 only on a miss (the disjunctive
hypothesis: a current-context hit decides the match with no condition on the
top-level key), and on every successful match — including arity-0 matches,
covered since `num_values` may be 0 — the loop continues on the remaining
tokens from a state whose context is the matched template's identifier, with
the parsed occurrence recorded under that identifier. -/
theorem c8_lookup_priority_and_context_switch :
    ∀ (p : Parser) (args : List String) (i : Nat) (arg : String)
      (rest : List String) (st : LoopState) (t : Template),
      ¬ (arg = "--help" ∨ arg = "-h") →
      (hmGet p.stored (st.context, arg) = some t
        ∨ (hmGet p.stored (st.context, arg) = none
            ∧ hmGet p.stored (0, arg) = some t)) →
      (t.optional_vals = true
        ∨ t.num_values ≤
            (consumeValues p.stored t.id args (i + 1) t.num_values).length) →
      ∃ st2, parseFrom p args (arg :: rest) i st =
          parseFrom p args rest (i + 1) st2
        ∧ st2.context = t.id
        ∧ hmGet st2.idhm t.id =
            some ⟨t.id, consumeValues p.stored t.id args (i + 1) t.num_values⟩ := by
  intro p args i arg rest st t hv hlook harity
  have hcond : ¬ (¬ t.optional_vals = true ∧
      (consumeValues p.stored t.id args (i + 1) t.num_values).length <
        t.num_values) := by
    rcases harity with h | h
    · simp [h]
    · intro hc
      omega
  rcases hlook with hg | ⟨hg1, hg2⟩
  · refine ⟨⟨hmInsert st.hm (st.context, arg)
        ⟨t.id, consumeValues p.stored t.id args (i + 1) t.num_values⟩,
      hmInsert st.idhm t.id
        ⟨t.id, consumeValues p.stored t.id args (i + 1) t.num_values⟩,
      t.id,
      if t.has_action then st.events ++
        [.callback t.id (consumeValues p.stored t.id args (i + 1) t.num_values)]
      else st.events⟩, ?_, rfl, hmGet_insert_self _ _ _⟩
    simp only [parseFrom, parseStep_ctx_hit p args i arg st t hv hg, matchBranch]
    rw [if_neg hcond]
  · refine ⟨⟨hmInsert st.hm (0, arg)
        ⟨t.id, consumeValues p.stored t.id args (i + 1) t.num_values⟩,
      hmInsert st.idhm t.id
        ⟨t.id, consumeValues p.stored t.id args (i + 1) t.num_values⟩,
      t.id,
      if t.has_action then st.events ++
        [.callback t.id (consumeValues p.stored t.id args (i + 1) t.num_values)]
      else st.events⟩, ?_, rfl, hmGet_insert_self _ _ _⟩
    simp only [parseFrom, parseStep_top_hit p args i arg st t hv hg1 hg2,
      matchBranch]
    rw [if_neg hcond]

/-- Witness for `c8_lookup_priority_and_context_switch`: in `dupParser` the
alias `dup` is registered both top-level (id 1) and under `-x` (id 4); at
the state reached after `-x` matched (context 2), the current-context lookup
wins and the context switches to 4. -/
theorem c8_witness :
    ∃ st2, parseFrom dupParser ["-x", "dup"] ["dup"] 1
        ⟨[((0, "-x"), ⟨2, []⟩)], [(2, ⟨2, []⟩)], 2, []⟩ =
        parseFrom dupParser ["-x", "dup"] [] 2 st2
      ∧ st2.context = 4
      ∧ hmGet st2.idhm 4 =
          some ⟨4, consumeValues dupParser.stored 4 ["-x", "dup"] 2 0⟩ :=
  c8_lookup_priority_and_context_switch dupParser ["-x", "dup"] 1 "dup" []
    ⟨[((0, "-x"), ⟨2, []⟩)], [(2, ⟨2, []⟩)], 2, []⟩
    ⟨["dup"], 0, false, some 2, 4, false⟩ (by decide) (Or.inl rfl)
    (Or.inr (by decide))

/-! ## Registration lemmas -/

/-- The alias-insertion loop of `add_to_map` never touches `last_id`. -/
theorem foldl_addOneAlias_last_id (t : Template) :
    ∀ (l : List String) (p : Parser),
      (l.foldl (addOneAlias t) p).last_id = p.last_id := by
  intro l
  induction l with
  | nil => intro p; rfl
  | cons name names ih => intro p; rw [List.foldl_cons, ih]; rfl

/-- Every binding present after the alias-insertion loop is either an old
binding or the template being inserted. -/
theorem foldl_addOneAlias_stored (t : Template) :
    ∀ (l : List String) (p : Parser) (k : Nat × String) (t2 : Template),
      hmGet ((l.foldl (addOneAlias t) p).stored) k = some t2 →
      hmGet p.stored k = some t2 ∨ t2 = t := by
  intro l
  induction l with
  | nil => intro p k t2 h; exact Or.inl h
  | cons name names ih =>
    intro p k t2 h
    rw [List.foldl_cons] at h
    rcases ih (addOneAlias t p name) k t2 h with h1 | h2
    · by_cases hk : k = (t.subargument_of.getD 0, name)
      · right
        rw [addOneAlias] at h1
        simp only at h1
        rw [hk, hmGet_insert_self] at h1
        exact (Option.some.inj h1).symm
      · left
        rw [addOneAlias] at h1
        simp only at h1
        rwa [hmGet_insert_other _ _ _ _ hk] at h1
    · exact Or.inr h2

/-- `add_to_map` returns `last_id + 1`, which is also the new `last_id`. -/
theorem add_to_map_id (p : Parser) (t : Template) :
    (p.add_to_map t).2 = p.last_id + 1
    ∧ (p.add_to_map t).1.last_id = p.last_id + 1 := by
  simp [Parser.add_to_map, Parser.generate_id, foldl_addOneAlias_last_id]

/-- `add_to_map` only adds bindings of the freshly-stamped template: any
binding of the result is an old binding or carries the returned id. -/
theorem add_to_map_stored (p : Parser) (t : Template) (k : Nat × String)
    (t2 : Template) (h : hmGet (p.add_to_map t).1.stored k = some t2) :
    hmGet p.stored k = some t2 ∨ t2.id = (p.add_to_map t).2 := by
  rw [Parser.add_to_map] at h
  rcases foldl_addOneAlias_stored _ _ _ _ _ h with h1 | h2
  · exact Or.inl h1
  · right
    rw [h2]
    rfl

/-- One registration call of the public API, for reasoning about arbitrary
registration sequences. -/
inductive RegCall where
  /-- `Parser::add`. -/
  | addCall (m : String) (n : Nat)
  /-- `Parser::add_template`. -/
  | addTemplateCall (t : Template)
  /-- `Parser::add_subcommand`. -/
  | addSubcommandCall (parent : Nat) (m : String) (n : Nat)
  /-- `Parser::add_subcommand_template`. -/
  | addSubcommandTemplateCall (parent : Nat) (t : Template)

/-- Run one registration call. -/
def applyCall (p : Parser) : RegCall → Parser × Nat
  | .addCall m n => p.add m n
  | .addTemplateCall t => p.add_template t
  | .addSubcommandCall parent m n => p.add_subcommand parent m n
  | .addSubcommandTemplateCall parent t => p.add_subcommand_template parent t

/-- Run a sequence of registration calls, collecting the returned ids. -/
def regRun : Parser → List RegCall → Parser × List Nat
  | p, [] => (p, [])
  | p, c :: cs =>
    ((regRun (applyCall p c).1 cs).1,
      (applyCall p c).2 :: (regRun (applyCall p c).1 cs).2)

/-- Every registration call strictly increases `last_id` and returns the new
`last_id`. -/
theorem applyCall_id (p : Parser) (c : RegCall) :
    p.last_id < (applyCall p c).2
    ∧ (applyCall p c).2 = (applyCall p c).1.last_id := by
  cases c with
  | addCall m n =>
    simp [applyCall, Parser.add, Parser.add_to_map, Parser.generate_id,
      foldl_addOneAlias_last_id]
  | addTemplateCall t =>
    simp [applyCall, Parser.add_template, Parser.add_to_map,
      Parser.generate_id, foldl_addOneAlias_last_id]
  | addSubcommandCall parent m n =>
    refine ⟨?_, ?_⟩
    · simp only [applyCall, Parser.add_subcommand, Parser.add_to_map,
        Parser.generate_id]
      omega
    · simp [applyCall, Parser.add_subcommand, Parser.add_to_map,
        Parser.generate_id, foldl_addOneAlias_last_id]
  | addSubcommandTemplateCall parent t =>
    refine ⟨?_, ?_⟩
    · simp only [applyCall, Parser.add_subcommand_template, Parser.add_to_map,
        Parser.generate_id]
      omega
    · simp [applyCall, Parser.add_subcommand_template, Parser.add_to_map,
        Parser.generate_id, foldl_addOneAlias_last_id]

/-- Ids returned by a registration sequence are a `<`-chain, all above the
starting `last_id`. -/
theorem regRun_ids_above :
    ∀ (cs : List RegCall) (p : Parser),
      List.Chain' (· < ·) (regRun p cs).2
      ∧ ∀ j ∈ (regRun p cs).2, p.last_id < j := by
  intro cs
  induction cs with
  | nil => intro p; simp [regRun]
  | cons c cs ih =>
    intro p
    obtain ⟨ha, hb⟩ := applyCall_id p c
    obtain ⟨ih1, ih2⟩ := ih (applyCall p c).1
    constructor
    · rw [regRun]
      refine List.chain'_cons'.mpr ⟨?_, ih1⟩
      intro y hy
      have hmem := List.mem_of_mem_head? hy
      have := ih2 y hmem
      omega
    · intro j hj
      rw [regRun] at hj
      rcases List.mem_cons.mp hj with h1 | h2
      · omega
      · have := ih2 j h2
        omega

/-! ## C7 -/

/-- C7: every registration call (`add`, `add_template`, `add_subcommand`,
`add_subcommand_template`) returns an id strictly greater than the parser's
previous `last_id` and equal to its new `last_id` (first conjunct), so the
ids returned by any call sequence on a fresh parser are pairwise strictly
increasing — unique and never reused — and strictly positive (second
conjunct); and no call mutates an already-stored template: every binding
after a call is either exactly an old binding (identifier included) or
carries the id the call just returned (third conjunct). -/
theorem c7_identifiers_monotone_positive_immutable :
    (∀ (p : Parser) (c : RegCall),
      p.last_id < (applyCall p c).2
      ∧ (applyCall p c).2 = (applyCall p c).1.last_id)
    ∧ (∀ calls : List RegCall,
      List.Pairwise (· < ·) (regRun Parser.new calls).2
      ∧ ∀ j ∈ (regRun Parser.new calls).2, 0 < j)
    ∧ (∀ (p : Parser) (c : RegCall) (k : Nat × String) (t2 : Template),
      hmGet (applyCall p c).1.stored k = some t2 →
      hmGet p.stored k = some t2 ∨ t2.id = (applyCall p c).2) := by
  refine ⟨applyCall_id, ?_, ?_⟩
  · intro calls
    obtain ⟨h1, h2⟩ := regRun_ids_above calls Parser.new
    exact ⟨List.chain'_iff_pairwise.mp h1, h2⟩
  · intro p c k t2 h
    cases c with
    | addCall m n =>
      exact add_to_map_stored p _ k t2 h
    | addTemplateCall t =>
      exact add_to_map_stored p _ k t2 h
    | addSubcommandCall parent m n =>
      exact add_to_map_stored (p.generate_id).1 _ k t2 h
    | addSubcommandTemplateCall parent t =>
      exact add_to_map_stored (p.generate_id).1 _ k t2 h

/-- Witness for `c7_identifiers_monotone_positive_immutable`: a mixed
sequence of all four calls on a fresh parser, and preservation of an old
binding across a later call. -/
theorem c7_witness :
    (List.Pairwise (· < ·)
      (regRun Parser.new
        [.addCall "-a" 0, .addSubcommandCall 1 "-b" 2,
         .addTemplateCall (Template.new.addMatch "-c"),
         .addSubcommandTemplateCall 4 (Template.new.addMatch "-d")]).2
    ∧ ∀ j ∈ (regRun Parser.new
        [.addCall "-a" 0, .addSubcommandCall 1 "-b" 2,
         .addTemplateCall (Template.new.addMatch "-c"),
         .addSubcommandTemplateCall 4 (Template.new.addMatch "-d")]).2, 0 < j)
    ∧ (hmGet (Parser.new.add "-a" 0).1.stored (0, "-a") =
        some ⟨["-a"], 0, false, none, 1, false⟩
      ∨ Template.id ⟨["-a"], 0, false, none, 1, false⟩ =
          (applyCall (Parser.new.add "-a" 0).1 (.addCall "-b" 0)).2) :=
  ⟨c7_identifiers_monotone_positive_immutable.2.1
    [.addCall "-a" 0, .addSubcommandCall 1 "-b" 2,
     .addTemplateCall (Template.new.addMatch "-c"),
     .addSubcommandTemplateCall 4 (Template.new.addMatch "-d")],
    c7_identifiers_monotone_positive_immutable.2.2
      (Parser.new.add "-a" 0).1 (.addCall "-b" 0) (0, "-a")
      ⟨["-a"], 0, false, none, 1, false⟩ rfl⟩

/-! ## C9 -/

/-- After `add`, the alias is bound (under the top-level key) to the
just-registered template carrying the returned id. -/
theorem add_stored_self (p : Parser) (m : String) (n : Nat) :
    hmGet (p.add m n).1.stored (0, m) =
      some ⟨[m], n, false, none, (p.add m n).2, false⟩ := by
  simp [Parser.add, Parser.add_to_map, Parser.generate_id, Template.new,
    Template.addMatch, Template.number_of_values, Template.set_id,
    addOneAlias, hmGet_insert_self]

/-- C9: registering a second template under the same parent context and
alias silently replaces the first in the key map — after two `add` calls
with the same alias, the top-level key is bound to the second template
(first conjunct); likewise for two `add_subcommand` calls under the same
nonzero parent (second conjunct); the two calls return distinct ids (third
conjunct); no error is possible (registration is total, and conjunct four
shows a pass completing successfully); and a subsequent parse of the alias
matches the later template: for arity 0 the pass records the second id in
both result maps (fourth conjunct). -/
theorem c9_same_key_last_write_wins :
    (∀ (p : Parser) (m : String) (n1 n2 : Nat),
      hmGet ((p.add m n1).1.add m n2).1.stored (0, m) =
        some ⟨[m], n2, false, none, ((p.add m n1).1.add m n2).2, false⟩)
    ∧ (∀ (p : Parser) (parent : Nat) (m : String) (n1 n2 : Nat),
      hmGet ((p.add_subcommand parent m n1).1.add_subcommand parent m
          n2).1.stored (parent, m) =
        some ⟨[m], n2, false, some parent,
          ((p.add_subcommand parent m n1).1.add_subcommand parent m n2).2,
          false⟩)
    ∧ (∀ (p : Parser) (m : String) (n1 n2 : Nat),
      (p.add m n1).2 < ((p.add m n1).1.add m n2).2)
    ∧ (∀ (p : Parser) (m : String) (n1 : Nat),
      ¬ (m = "--help" ∨ m = "-h") →
      ((p.add m n1).1.add m 0).1.parse [m] =
        (.ok [((0, m), ⟨((p.add m n1).1.add m 0).2, []⟩)]
          [(((p.add m n1).1.add m 0).2, ⟨((p.add m n1).1.add m 0).2, []⟩)],
          [])) := by
  refine ⟨?_, ?_, ?_, ?_⟩
  · intro p m n1 n2
    exact add_stored_self (p.add m n1).1 m n2
  · intro p parent m n1 n2
    simp [Parser.add_subcommand, Parser.add_to_map, Parser.generate_id,
      Template.new, Template.addMatch, Template.number_of_values,
      Template.set_id, Template.subarg, addOneAlias, hmGet_insert_self]
  · intro p m n1 n2
    simp [Parser.add, Parser.add_to_map, Parser.generate_id,
      foldl_addOneAlias_last_id]
  · intro p m n1 hm
    have hg := add_stored_self (p.add m n1).1 m 0
    rw [Parser.parse]
    simp only [parseFrom,
      parseStep_ctx_hit ((p.add m n1).1.add m 0).1 [m] 0 m ⟨[], [], 0, []⟩
        ⟨[m], 0, false, none, ((p.add m n1).1.add m 0).2, false⟩ hm hg]
    simp [matchBranch, consumeValues, hmInsert]

/-- Witness for `c9_same_key_last_write_wins`: registering `--dup` twice on
a fresh parser binds the key to the second template (id 2), and parsing
`["--dup"]` records id 2. -/
theorem c9_witness :
    hmGet ((Parser.new.add "--dup" 1).1.add "--dup" 2).1.stored (0, "--dup") =
      some ⟨["--dup"], 2, false, none, 2, false⟩
    ∧ ((Parser.new.add "--dup" 1).1.add "--dup" 0).1.parse ["--dup"] =
        (.ok [((0, "--dup"), ⟨2, []⟩)] [(2, ⟨2, []⟩)], []) :=
  ⟨c9_same_key_last_write_wins.1 Parser.new "--dup" 1 2,
    c9_same_key_last_write_wins.2.2.2 Parser.new "--dup" 1 (by decide)⟩

/-! ## Segment runner and pass-composition lemmas -/

/-- A bounded run of the outer loop of `Parser::parse`: process exactly the
tokens of one chunk, returning the loop state afterwards (or the abort). -/
def parseSeg (p : Parser) (args : List String) :
    List String → Nat → LoopState → Except (ParseResult × List Event) LoopState
  | [], _, st => .ok st
  | arg :: rest, i, st =>
    match parseStep p args i arg st with
    | .error out => .error out
    | .ok st2 => parseSeg p args rest (i + 1) st2

/-- The pass over `mid ++ rest` is the segment over `mid` followed, on
success, by the pass over `rest` from the reached state. -/
theorem parseFrom_append (p : Parser) (args : List String) :
    ∀ (mid rest : List String) (i : Nat) (st : LoopState),
      parseFrom p args (mid ++ rest) i st =
        match parseSeg p args mid i st with
        | .error out => out
        | .ok stm => parseFrom p args rest (i + mid.length) stm := by
  intro mid
  induction mid with
  | nil => intro rest i st; simp [parseSeg]
  | cons a as ih =>
    intro rest i st
    rw [List.cons_append]
    simp only [parseFrom, parseSeg]
    cases h : parseStep p args i a st with
    | error out => simp
    | ok st2 =>
      show parseFrom p args (as ++ rest) (i + 1) st2 =
        match parseSeg p args as (i + 1) st2 with
        | .error out => out
        | .ok stm => parseFrom p args rest (i + (a :: as).length) stm
      rw [ih rest (i + 1) st2]
      have harith : i + (a :: as).length = i + 1 + as.length := by
        simp
        omega
      rw [harith]

/-- A step that continues reduces `parseFrom` on a cons to `parseFrom` on
the tail. -/
theorem parseFrom_cons_ok (p : Parser) (args : List String) (i : Nat)
    (arg : String) (rest : List String) (st st2 : LoopState)
    (h : parseStep p args i arg st = .ok st2) :
    parseFrom p args (arg :: rest) i st = parseFrom p args rest (i + 1) st2 := by
  simp only [parseFrom, h]

/-- A successful match step (either lookup) continues the pass from the
state written by the match branch: context switched to the template's id,
the occurrence recorded under the lookup key and the id — overwriting any
earlier binding of that key and id — and the callback event, if any,
appended after all earlier events. -/
theorem parseFrom_match_step (p : Parser) (args : List String) (i : Nat)
    (arg : String) (rest : List String) (st : LoopState) (t : Template)
    (key : Nat × String)
    (hv : ¬ (arg = "--help" ∨ arg = "-h"))
    (hkey : (key = (st.context, arg) ∧ hmGet p.stored key = some t)
      ∨ (hmGet p.stored (st.context, arg) = none ∧ key = (0, arg)
          ∧ hmGet p.stored key = some t))
    (har : t.optional_vals = true ∨ t.num_values ≤
      (consumeValues p.stored t.id args (i + 1) t.num_values).length) :
    parseFrom p args (arg :: rest) i st = parseFrom p args rest (i + 1)
      { hm := hmInsert st.hm key
          ⟨t.id, consumeValues p.stored t.id args (i + 1) t.num_values⟩,
        idhm := hmInsert st.idhm t.id
          ⟨t.id, consumeValues p.stored t.id args (i + 1) t.num_values⟩,
        context := t.id,
        events := if t.has_action then st.events ++
          [.callback t.id (consumeValues p.stored t.id args (i + 1) t.num_values)]
        else st.events } := by
  have hcond : ¬ (¬ t.optional_vals = true ∧
      (consumeValues p.stored t.id args (i + 1) t.num_values).length <
        t.num_values) := by
    rcases har with h | h
    · simp [h]
    · intro hc
      omega
  rcases hkey with ⟨hke, hg⟩ | ⟨hmiss, hke, hg⟩
  · subst hke
    simp only [parseFrom, parseStep_ctx_hit p args i arg st t hv hg, matchBranch]
    rw [if_neg hcond]
  · subst hke
    simp only [parseFrom, parseStep_top_hit p args i arg st t hv hmiss hg,
      matchBranch]
    rw [if_neg hcond]

/-- The out-of-context branch never changes the loop state when it
continues. -/
theorem outOfContextBranch_ok_eq (p : Parser) (arg : String)
    (st st2 : LoopState) (h : outOfContextBranch p arg st = .ok st2) :
    st2 = st := by
  rw [outOfContextBranch] at h
  cases hf : p.stored.find? (fun e => arg ∈ e.2.aliases) with
  | none =>
    simp only [hf] at h
    exact (Except.ok.inj h).symm
  | some e =>
    simp only [hf] at h
    cases hs : e.2.subargument_of with
    | none =>
      simp only [hs] at h
      exact (Except.ok.inj h).symm
    | some pid =>
      simp only [hs] at h
      cases hp : p.stored.find? (fun q => q.2.id = pid) with
      | none =>
        simp only [hp] at h
        exact Except.noConfusion h
      | some pe =>
        simp only [hp] at h
        cases hh : pe.2.aliases.head? with
        | none =>
          simp only [hh] at h
          exact Except.noConfusion h
        | some a =>
          simp only [hh] at h
          exact Except.noConfusion h

/-- A match branch that continues only appends (at most one callback event)
to the event list. -/
theorem matchBranch_ok_events (p : Parser) (args : List String) (i : Nat)
    (arg : String) (key : Nat × String) (t : Template) (st st2 : LoopState)
    (h : matchBranch p args i arg key t st = .ok st2) :
    ∃ tail, st2.events = st.events ++ tail := by
  rw [matchBranch] at h
  split at h
  · exact Except.noConfusion h
  · have h2 := (Except.ok.inj h).symm
    subst h2
    cases ha : t.has_action with
    | false => exact ⟨[], by simp [ha]⟩
    | true =>
      exact ⟨[.callback t.id (consumeValues p.stored t.id args (i + 1)
        t.num_values)], by simp [ha]⟩

/-- A step that continues only appends to the event list. -/
theorem parseStep_ok_events (p : Parser) (args : List String) (i : Nat)
    (arg : String) (st st2 : LoopState)
    (h : parseStep p args i arg st = .ok st2) :
    ∃ tail, st2.events = st.events ++ tail := by
  rw [parseStep] at h
  by_cases h1 : (arg = "--help" ∨ arg = "-h")
  · by_cases h2 : p.exit_on_help
    · simp [h1, h2] at h
    · rw [if_pos h1, if_neg h2] at h
      cases hg : hmGet p.stored (st.context, arg) with
      | some t =>
        simp only [hg] at h
        obtain ⟨tail, ht⟩ := matchBranch_ok_events p args i arg _ t _ st2 h
        exact ⟨[.helpEmitted] ++ tail, by simp at ht; simp [ht]⟩
      | none =>
        simp only [hg] at h
        cases hg2 : hmGet p.stored (0, arg) with
        | some t =>
          simp only [hg2] at h
          obtain ⟨tail, ht⟩ := matchBranch_ok_events p args i arg _ t _ st2 h
          exact ⟨[.helpEmitted] ++ tail, by simp at ht; simp [ht]⟩
        | none =>
          simp only [hg2] at h
          have := outOfContextBranch_ok_eq p arg _ st2 h
          exact ⟨[.helpEmitted], by rw [this]⟩
  · rw [if_neg h1] at h
    cases hg : hmGet p.stored (st.context, arg) with
    | some t =>
      simp only [hg] at h
      exact matchBranch_ok_events p args i arg _ t _ st2 h
    | none =>
      simp only [hg] at h
      cases hg2 : hmGet p.stored (0, arg) with
      | some t =>
        simp only [hg2] at h
        exact matchBranch_ok_events p args i arg _ t _ st2 h
      | none =>
        simp only [hg2] at h
        have := outOfContextBranch_ok_eq p arg st st2 h
        exact ⟨[], by simp [this]⟩

/-- A segment that completes only appends to the event list. -/
theorem parseSeg_ok_events (p : Parser) (args : List String) :
    ∀ (mid : List String) (i : Nat) (st stm : LoopState),
      parseSeg p args mid i st = .ok stm →
      ∃ tail, stm.events = st.events ++ tail := by
  intro mid
  induction mid with
  | nil =>
    intro i st stm h
    have h2 := Except.ok.inj h
    exact ⟨[], by rw [← h2]; simp⟩
  | cons a as ih =>
    intro i st stm h
    rw [parseSeg] at h
    cases hs : parseStep p args i a st with
    | error out =>
      simp only [hs] at h
      exact Except.noConfusion h
    | ok st2 =>
      simp only [hs] at h
      obtain ⟨t1, h1⟩ := parseStep_ok_events p args i a st st2 hs
      obtain ⟨t2, h2⟩ := ih (i + 1) st2 stm h
      exact ⟨t1 ++ t2, by rw [h2, h1, List.append_assoc]⟩

/-! ## C6 -/

/-- C6: fully general over passes in which the same template key is matched
more than once.  For any parser, token sequence, state and key: if the key
matches at position `i` (through either lookup), any middle segment `mid` of
the pass then completes, and the same key matches again at position
`i + 1 + mid.length`, the pass continues from a state whose by-key and
by-identifier maps hold the record of the SECOND occurrence (the first
occurrence's record, inserted by the first match, has been overwritten),
while the event list contains the callback event of each occurrence exactly
once, in left-to-right order (first occurrence's callback, then the middle
segment's events, then the second occurrence's callback).  Taking
`rest2 = []` the continuation is the returned result set itself, which thus
retains only the last occurrence. -/
theorem c6_last_occurrence_retained_callback_per_occurrence :
    ∀ (p : Parser) (args : List String) (i : Nat) (arg : String)
      (mid rest2 : List String) (st stm : LoopState) (t : Template)
      (key : Nat × String),
      ¬ (arg = "--help" ∨ arg = "-h") →
      ((key = (st.context, arg) ∧ hmGet p.stored key = some t)
        ∨ (hmGet p.stored (st.context, arg) = none ∧ key = (0, arg)
            ∧ hmGet p.stored key = some t)) →
      (t.optional_vals = true ∨ t.num_values ≤
        (consumeValues p.stored t.id args (i + 1) t.num_values).length) →
      parseSeg p args mid (i + 1)
        { hm := hmInsert st.hm key
            ⟨t.id, consumeValues p.stored t.id args (i + 1) t.num_values⟩,
          idhm := hmInsert st.idhm t.id
            ⟨t.id, consumeValues p.stored t.id args (i + 1) t.num_values⟩,
          context := t.id,
          events := if t.has_action then st.events ++
            [.callback t.id
              (consumeValues p.stored t.id args (i + 1) t.num_values)]
          else st.events } = .ok stm →
      (key = (stm.context, arg)
        ∨ (hmGet p.stored (stm.context, arg) = none ∧ key = (0, arg))) →
      (t.optional_vals = true ∨ t.num_values ≤
        (consumeValues p.stored t.id args (i + 1 + mid.length + 1)
          t.num_values).length) →
      ∃ stf,
        parseFrom p args (arg :: (mid ++ arg :: rest2)) i st =
          parseFrom p args rest2 (i + 1 + mid.length + 1) stf
        ∧ hmGet stf.hm key = some ⟨t.id,
            consumeValues p.stored t.id args (i + 1 + mid.length + 1)
              t.num_values⟩
        ∧ hmGet stf.idhm t.id = some ⟨t.id,
            consumeValues p.stored t.id args (i + 1 + mid.length + 1)
              t.num_values⟩
        ∧ ∃ midtail,
            stf.events = st.events
              ++ (if t.has_action then
                  [Event.callback t.id
                    (consumeValues p.stored t.id args (i + 1) t.num_values)]
                else [])
              ++ midtail
              ++ (if t.has_action then
                  [Event.callback t.id
                    (consumeValues p.stored t.id args (i + 1 + mid.length + 1)
                      t.num_values)]
                else []) := by
  intro p args i arg mid rest2 st stm t key hv hk1 har1 hmid hk2 har2
  have ht : hmGet p.stored key = some t := by
    rcases hk1 with ⟨_, h⟩ | ⟨_, _, h⟩
    · exact h
    · exact h
  have hk2' : (key = (stm.context, arg) ∧ hmGet p.stored key = some t)
      ∨ (hmGet p.stored (stm.context, arg) = none ∧ key = (0, arg)
          ∧ hmGet p.stored key = some t) := by
    rcases hk2 with h | ⟨h1, h2⟩
    · exact Or.inl ⟨h, ht⟩
    · exact Or.inr ⟨h1, h2, ht⟩
  have hstep1 := parseFrom_match_step p args i arg (mid ++ arg :: rest2) st t
    key hv hk1 har1
  have hstep2 := parseFrom_match_step p args (i + 1 + mid.length) arg rest2
    stm t key hv hk2' har2
  obtain ⟨midtail, hmt⟩ := parseSeg_ok_events p args mid (i + 1) _ stm hmid
  refine ⟨⟨hmInsert stm.hm key
      ⟨t.id, consumeValues p.stored t.id args (i + 1 + mid.length + 1)
        t.num_values⟩,
    hmInsert stm.idhm t.id
      ⟨t.id, consumeValues p.stored t.id args (i + 1 + mid.length + 1)
        t.num_values⟩,
    t.id,
    if t.has_action then stm.events ++
      [.callback t.id
        (consumeValues p.stored t.id args (i + 1 + mid.length + 1)
          t.num_values)]
    else stm.events⟩, ?_, hmGet_insert_self _ _ _, hmGet_insert_self _ _ _,
    ?_⟩
  · rw [hstep1, parseFrom_append p args mid (arg :: rest2) (i + 1) _, hmid]
    exact hstep2
  · refine ⟨midtail, ?_⟩
    cases ha : t.has_action with
    | true =>
      simp only [ha, if_true] at hmt ⊢
      rw [hmt]
    | false =>
      simp only [ha, if_false] at hmt ⊢
      rw [hmt]
      simp

/-- Witness for `c6_last_occurrence_retained_callback_per_occurrence`: the
`say`-with-callback parser on `["say", "a", "say", "b"]` — the key
`(0, "say")` matches at positions 0 and 2, the result maps end up holding
`["b"]` under the key and the id, and the callback events for `["a"]` and
`["b"]` both appear, in that order. -/
theorem c6_witness :
    ∃ stf,
      parseFrom sayCbParser ["say", "a", "say", "b"]
          ("say" :: (["a"] ++ "say" :: ["b"])) 0 ⟨[], [], 0, []⟩ =
        parseFrom sayCbParser ["say", "a", "say", "b"] ["b"] 3 stf
      ∧ hmGet stf.hm (0, "say") = some ⟨1,
          consumeValues sayCbParser.stored 1 ["say", "a", "say", "b"] 3 1⟩
      ∧ hmGet stf.idhm 1 = some ⟨1,
          consumeValues sayCbParser.stored 1 ["say", "a", "say", "b"] 3 1⟩
      ∧ ∃ midtail,
          stf.events = []
            ++ [Event.callback 1
                (consumeValues sayCbParser.stored 1 ["say", "a", "say", "b"] 1 1)]
            ++ midtail
            ++ [Event.callback 1
                (consumeValues sayCbParser.stored 1 ["say", "a", "say", "b"] 3 1)] := by
  have h := c6_last_occurrence_retained_callback_per_occurrence sayCbParser
    ["say", "a", "say", "b"] 0 "say" ["a"] ["b"] ⟨[], [], 0, []⟩
    ⟨[((0, "say"), ⟨1, ["a"]⟩)], [(1, ⟨1, ["a"]⟩)], 1, [.callback 1 ["a"]]⟩
    ⟨["say"], 1, true, none, 1, true⟩ (0, "say")
    (by decide) (Or.inl ⟨rfl, rfl⟩) (Or.inl rfl) rfl
    (Or.inr ⟨rfl, rfl⟩) (Or.inl rfl)
  exact h

/-! ## C10 -/

/-- C10: general over parsers, positions and states.  First conjunct: the
value-consumption loop does not stop at a help token that is not a registry
key under the consuming context or the top-level context — at any window
position with slots left, the token is consumed as one of the template's
values.  Second conjunct: whenever the outer pass reaches a help token, it
triggers the help-emission side effect: with `exit_on_help` set the whole
pass ends in `exit(0)` right there with the help event emitted, and with
`exit_on_help` unset (the token being no registry key and owned by no
template) the pass continues on the remaining tokens with only the help
event appended to the state.  The last two conjuncts run the combination
end to end on `["--say", "--help"]`: `--help` is recorded as `--say`'s
value AND help is emitted in the same pass — with exit when configured. -/
theorem c10_help_token_is_both_value_and_help :
    (∀ (stored : List ((Nat × String) × Template)) (ctx : Nat)
      (args : List String) (i fuel : Nat) (tok : String),
      (tok = "--help" ∨ tok = "-h") →
      isStop stored ctx tok = false →
      args[i]? = some tok →
      consumeValues stored ctx args i (fuel + 1) =
        tok :: consumeValues stored ctx args (i + 1) fuel)
    ∧ (∀ (p : Parser) (args : List String) (i : Nat) (tok : String)
      (rest : List String) (st : LoopState),
      (tok = "--help" ∨ tok = "-h") →
      (p.exit_on_help = true →
        parseFrom p args (tok :: rest) i st =
          (.exited, st.events ++ [.helpEmitted]))
      ∧ (p.exit_on_help = false →
        hmGet p.stored (st.context, tok) = none →
        hmGet p.stored (0, tok) = none →
        p.stored.find? (fun q => tok ∈ q.2.aliases) = none →
        parseFrom p args (tok :: rest) i st =
          parseFrom p args rest (i + 1)
            { st with events := st.events ++ [.helpEmitted] }))
    ∧ noExitParser.parse ["--say", "--help"] =
        (.ok [((0, "--say"), ⟨1, ["--help"]⟩)] [(1, ⟨1, ["--help"]⟩)],
         [.helpEmitted])
    ∧ sayParser.parse ["--say", "--help"] = (.exited, [.helpEmitted]) := by
  refine ⟨?_, ?_, rfl, rfl⟩
  · intro stored ctx args i fuel tok htok hstop hpos
    simp [consumeValues, hpos, hstop]
  · intro p args i tok rest st htok
    constructor
    · intro hexit
      simp only [parseFrom, parseStep, if_pos htok, if_pos hexit]
    · intro hexit hg1 hg2 hf
      have hex : ¬ p.exit_on_help = true := by simp [hexit]
      simp only [parseFrom, parseStep, if_pos htok, if_neg hex]
      simp [hg1, hg2, outOfContextBranch, hf]

/-- Witness for `c10_help_token_is_both_value_and_help`: `--help` inside
`--say`'s value window on `["--say", "--help"]` — consumed by the
consumption loop, and at the outer pass's position 1 it exits (default
parser) or appends the help event and continues (`exit_on_help(false)`). -/
theorem c10_witness :
    consumeValues noExitParser.stored 1 ["--say", "--help"] 1 (0 + 1) =
      "--help" :: consumeValues noExitParser.stored 1 ["--say", "--help"] 2 0
    ∧ parseFrom sayParser ["--say", "--help"] ["--help"] 1
        ⟨[((0, "--say"), ⟨1, ["--help"]⟩)], [(1, ⟨1, ["--help"]⟩)], 1, []⟩ =
        (.exited, [] ++ [.helpEmitted])
    ∧ parseFrom noExitParser ["--say", "--help"] ["--help"] 1
        ⟨[((0, "--say"), ⟨1, ["--help"]⟩)], [(1, ⟨1, ["--help"]⟩)], 1, []⟩ =
        parseFrom noExitParser ["--say", "--help"] [] 2
          ⟨[((0, "--say"), ⟨1, ["--help"]⟩)], [(1, ⟨1, ["--help"]⟩)], 1,
            [] ++ [.helpEmitted]⟩ :=
  ⟨c10_help_token_is_both_value_and_help.1 noExitParser.stored 1
      ["--say", "--help"] 1 0 "--help" (Or.inl rfl) rfl rfl,
    (c10_help_token_is_both_value_and_help.2.1 sayParser ["--say", "--help"]
      1 "--help" []
      ⟨[((0, "--say"), ⟨1, ["--help"]⟩)], [(1, ⟨1, ["--help"]⟩)], 1, []⟩
      (Or.inl rfl)).1 rfl,
    (c10_help_token_is_both_value_and_help.2.1 noExitParser ["--say", "--help"]
      1 "--help" []
      ⟨[((0, "--say"), ⟨1, ["--help"]⟩)], [(1, ⟨1, ["--help"]⟩)], 1, []⟩
      (Or.inl rfl)).2 rfl rfl rfl rfl⟩
